import Mathlib

/-!
Shallow embedding of the adaptive skip-decision engine of
`src/entry-points/content/ElementPlaybackControllerCloning/ElementPlaybackControllerCloning.ts`.

Media times, timestamps and speeds are modelled as rationals (`ℚ`); JS
numbers overflow/precision plays no role in the properties checked here.
The pieces modelled, with the source lines they embed:
- `SeekDurationProphet` (lines 92-147): the seek-latency estimator and its
  `seeking`/`seeked` event handlers;
- `maybeScheduleMaybeSeekOrSpeedup` (lines 457-554): the skip scheduler,
  as a pure function from the current position and the lookahead's answer
  to the effect it performs on the timer slot;
- `maybeSeekOrSpeedup` (lines 562-749): the skip decision engine, with its
  inner `needForceSeekForDesyncCorrection` and `whatToDo` closures, as a
  pure function from the controller state and element state to the verdict,
  the executed effect and the new controller state.
-/

/-- The constant `seekDurationProphetHistoryLength` (line 92). -/
def seekDurationProphetHistoryLength : Nat := 5

/-- The constant `seekDurationProphetNoDataInitialAssumedDuration` (line 93),
in milliseconds. -/
def seekDurationProphetNoDataInitialAssumedDuration : ℚ := 150

/-- The constant `DO_DESYNC_CORRECTION_EVERY_N_SPEED_SWITCHES` (line 149). -/
def DO_DESYNC_CORRECTION_EVERY_N_SPEED_SWITCHES : ℚ := 20

/-- JavaScript's `Number.MIN_VALUE`, the smallest positive double,
`2 ^ (-1074)`; used at line 645 as the fallback denominator. -/
def jsNumberMinValue : ℚ := 1 / 2 ^ 1074

/-- The events the `SeekDurationProphet` listens to: the element's
`seeking` (seek-begin) and `seeked` (seek-end) signals, each carrying its
`timeStamp` in milliseconds. -/
inductive SeekEvent where
  | seeking (timeStamp : ℚ)
  | seeked (timeStamp : ℚ)
deriving DecidableEq, Repr

/-- Timestamp carried by a seek event. -/
def SeekEvent.timeStamp : SeekEvent → ℚ
  | SeekEvent.seeking ts => ts
  | SeekEvent.seeked ts => ts

/-- State of the `SeekDurationProphet` class (lines 97-147): the bounded
history of observed seek durations, the running average, and the timestamp
of the most recent seek-begin event. -/
structure SeekDurationProphet where
  history : List ℚ
  historyAverage : ℚ
  lastSeekStartTime : ℚ
deriving DecidableEq, Repr

/-- Constructor state (lines 100-105): empty history, average preset to the
no-data assumed duration, and `lastSeekStartTime` preset to the construction
time (`performance.now()`). -/
def SeekDurationProphet.init (now : ℚ) : SeekDurationProphet :=
  { history := [],
    historyAverage := seekDurationProphetNoDataInitialAssumedDuration,
    lastSeekStartTime := now }

/-- The `onSeeking` handler (lines 119-128): record the event's timestamp as
the new reference point; may fire several times before a matching `seeked`. -/
def SeekDurationProphet.onSeeking (p : SeekDurationProphet) (timeStamp : ℚ) :
    SeekDurationProphet :=
  { p with lastSeekStartTime := timeStamp }

/-- The `onSeeked` handler (lines 129-143): push the measured duration, evict
the oldest sample once the history exceeds its bound, and recompute the
average as the sum of the (nonempty) history divided by its length
(the JS `reduce((acc, curr) => acc + curr)` over a nonempty array). -/
def SeekDurationProphet.onSeeked (p : SeekDurationProphet) (timeStamp : ℚ) :
    SeekDurationProphet :=
  let seekDuration := timeStamp - p.lastSeekStartTime
  let pushed := p.history ++ [seekDuration]
  let history :=
    if seekDurationProphetHistoryLength < pushed.length then pushed.tail else pushed
  { p with
    history := history,
    historyAverage := history.sum / (history.length : ℚ) }

/-- The getter `nextSeekDurationMs` (lines 144-146). -/
def SeekDurationProphet.nextSeekDurationMs (p : SeekDurationProphet) : ℚ :=
  p.historyAverage

/-- Dispatch one seek event to the prophet's handler. -/
def SeekDurationProphet.step (p : SeekDurationProphet) : SeekEvent → SeekDurationProphet
  | SeekEvent.seeking ts => p.onSeeking ts
  | SeekEvent.seeked ts => p.onSeeked ts

/-- Process a sequence of seek events in order. -/
def SeekDurationProphet.run (p : SeekDurationProphet) (events : List SeekEvent) :
    SeekDurationProphet :=
  events.foldl SeekDurationProphet.step p

/-- The settings fields of `ControllerSettings` (lines 53-70) that the
modelled operations read. `marginBefore`/`marginAfter`/`volumeThreshold`
are only forwarded to external collaborators except that `volumeThreshold`
also parametrises the actual playback rate chosen for a speed. -/
structure ControllerSettings where
  volumeThreshold : ℚ
  soundedSpeed : ℚ
  silenceSpeed : ℚ
  enableDesyncCorrection : Bool
  isOppositeDay : Bool
deriving DecidableEq, Repr

/-- The fields of the controlled `HTMLMediaElement` the decision engine
reads: `currentTime` and `paused`. -/
structure ElementState where
  currentTime : ℚ
  paused : Bool
deriving DecidableEq, Repr

/-- Modelled from the spec: `getActualPlaybackRateForSpeed`
(`maybeClosestNonNormalSpeed`, line 151) is imported from
`@/entry-points/content/helpers`, whose code is not part of the inspected
files. The spec says executing SPEEDUP switches "playback rate to the
silence-speed value" and back "to the sounded-speed value", so the function
is modelled as returning the requested speed value itself. -/
def getActualPlaybackRateForSpeed (speed : ℚ) (_volumeThreshold : ℚ) : ℚ :=
  speed

/-- What one evaluation of the decision engine decides (lines 654-658). -/
inductive WhatToDo where
  | NOTHING
  | SPEEDUP
  | SEEK
deriving DecidableEq, Repr

/-- Payload of an executed SPEEDUP (lines 740-744): the playback rate set
immediately, the real-time delay in seconds of the one-shot timer armed to
restore the rate, and the rate that timer sets back. -/
structure SpeedupEffect where
  rateNow : ℚ
  restoreDelaySeconds : ℚ
  rateAfter : ℚ
deriving DecidableEq, Repr

/-- Observable effect of one `maybeSeekOrSpeedup` invocation on the element:
no mutation at all, a seek (assignment to `element.currentTime`, line 723),
or a speedup (rate switch plus restoration timer, lines 740-744). -/
inductive EngineEffect where
  | noop
  | seek (target : ℚ)
  | speedup (e : SpeedupEffect)
deriving DecidableEq, Repr

/-- Controller state carried between engine invocations: the desync budget
counter `_didNotDoDesyncCorrectionForNSpeedSwitches` (line 199) and the
seek-latency estimator (line 197). -/
structure EngineState where
  didNotDoDesyncCorrectionForNSpeedSwitches : Nat
  prophet : SeekDurationProphet
deriving DecidableEq, Repr

/-- Result of one `maybeSeekOrSpeedup` invocation. `verdict` is `none` when
the invocation aborted at the staleness check (lines 571-576) and
`some` of the `whatToDo` verdict otherwise. -/
structure EngineResult where
  verdict : Option WhatToDo
  effect : EngineEffect
  state : EngineState
deriving DecidableEq, Repr

/-- The inner closure `needForceSeekForDesyncCorrection` (lines 621-652):
when the desync-bug workaround is active, compare how much we want a
correction (budget divided by the correction interval) with how much we do
not want to seek (one minus the ratio of the natural time left to the
expected seek duration, the latter replaced by `Number.MIN_VALUE` when
zero, which is what the JS `||` fallback does for a nonnegative number). -/
def needForceSeekForDesyncCorrection (browserHasAudioDesyncBug : Bool)
    (enableDesyncCorrection : Bool)
    (didNotDoDesyncCorrectionForNSpeedSwitches : Nat)
    (realTimeLeftUntilDestinationAtNormalSpeed expectedSeekDuration : ℚ) : Bool :=
  if browserHasAudioDesyncBug && enableDesyncCorrection then
    let howMuchWeWantDesyncCorrection :=
      (didNotDoDesyncCorrectionForNSpeedSwitches : ℚ) /
        DO_DESYNC_CORRECTION_EVERY_N_SPEED_SWITCHES
    let denominator :=
      if expectedSeekDuration = 0 then jsNumberMinValue else expectedSeekDuration
    let howMuchWeWantToSeek :=
      realTimeLeftUntilDestinationAtNormalSpeed / denominator
    let howMuchWeDontWantToSeek := 1 - howMuchWeWantToSeek
    decide (howMuchWeWantDesyncCorrection ≥ howMuchWeDontWantToSeek)
  else
    false

/-- The inner closure `whatToDo` (lines 659-720), with the (pure) result of
`needForceSeekForDesyncCorrection` passed in as `needForceSeek`. -/
def whatToDo (needForceSeek : Bool)
    (canSaveTimeBySeeking canSaveTimeBySpeedingUp
      realTimeLeftUntilDestinationAtSilenceSpeed : ℚ) : WhatToDo :=
  let ifNeedForceSeekThenSeekElse : WhatToDo → WhatToDo := fun else_ =>
    if needForceSeek then WhatToDo.SEEK else else_
  if canSaveTimeBySeeking > canSaveTimeBySpeedingUp then
    if canSaveTimeBySeeking ≤ 0 then ifNeedForceSeekThenSeekElse WhatToDo.NOTHING
    else WhatToDo.SEEK
  else if canSaveTimeBySpeedingUp ≤ 0 then
    ifNeedForceSeekThenSeekElse WhatToDo.NOTHING
  else
    let expectedMinimumSetTimeoutDelay : ℚ := 1 / 240
    if realTimeLeftUntilDestinationAtSilenceSpeed ≤ expectedMinimumSetTimeoutDelay then
      if canSaveTimeBySeeking > 0 then WhatToDo.SEEK
      else ifNeedForceSeekThenSeekElse WhatToDo.NOTHING
    else ifNeedForceSeekThenSeekElse WhatToDo.SPEEDUP

/-- The method `maybeSeekOrSpeedup(seekTo, seekScheduledTo)` (lines 562-749).
`browserHasAudioDesyncBug` is the externally supplied platform flag. -/
def maybeSeekOrSpeedup (browserHasAudioDesyncBug : Bool)
    (settings : ControllerSettings) (st : EngineState) (el : ElementState)
    (seekTo seekScheduledTo : ℚ) : EngineResult :=
  let currentTime := el.currentTime
  let expectedCurrentTime := seekScheduledTo
  if |currentTime - expectedCurrentTime| > 1 / 2 ∨ el.paused = true then
    { verdict := none, effect := EngineEffect.noop, state := st }
  else
    let seekAmount := seekTo - currentTime
    let expectedSeekDuration := st.prophet.nextSeekDurationMs / 1000
    let realTimeLeftUntilDestinationAtNormalSpeed := seekAmount / settings.soundedSpeed
    let canSaveTimeBySeeking :=
      realTimeLeftUntilDestinationAtNormalSpeed - expectedSeekDuration
    let playbackRateForSpeedup := settings.silenceSpeed
    let realTimeLeftUntilDestinationAtSilenceSpeed := seekAmount / playbackRateForSpeedup
    let canSaveTimeBySpeedingUp :=
      if browserHasAudioDesyncBug && settings.enableDesyncCorrection then
        realTimeLeftUntilDestinationAtNormalSpeed -
          realTimeLeftUntilDestinationAtSilenceSpeed -
          expectedSeekDuration / DO_DESYNC_CORRECTION_EVERY_N_SPEED_SWITCHES
      else
        realTimeLeftUntilDestinationAtNormalSpeed -
          realTimeLeftUntilDestinationAtSilenceSpeed
    let needForceSeek := needForceSeekForDesyncCorrection browserHasAudioDesyncBug
      settings.enableDesyncCorrection st.didNotDoDesyncCorrectionForNSpeedSwitches
      realTimeLeftUntilDestinationAtNormalSpeed expectedSeekDuration
    match whatToDo needForceSeek canSaveTimeBySeeking canSaveTimeBySpeedingUp
        realTimeLeftUntilDestinationAtSilenceSpeed with
    | WhatToDo.SEEK =>
      { verdict := some WhatToDo.SEEK,
        effect := EngineEffect.seek seekTo,
        state := { st with didNotDoDesyncCorrectionForNSpeedSwitches := 0 } }
    | WhatToDo.SPEEDUP =>
      { verdict := some WhatToDo.SPEEDUP,
        effect := EngineEffect.speedup
          { rateNow :=
              getActualPlaybackRateForSpeed settings.silenceSpeed settings.volumeThreshold,
            restoreDelaySeconds := realTimeLeftUntilDestinationAtSilenceSpeed,
            rateAfter :=
              getActualPlaybackRateForSpeed settings.soundedSpeed settings.volumeThreshold },
        state := { st with
          didNotDoDesyncCorrectionForNSpeedSwitches :=
            st.didNotDoDesyncCorrectionForNSpeedSwitches + 1 } }
    | WhatToDo.NOTHING =>
      { verdict := some WhatToDo.NOTHING, effect := EngineEffect.noop, state := st }

/-- Observable effect of one `maybeScheduleMaybeSeekOrSpeedup` call on the
scheduler-timer slot `maybeSeekOrSpeedupTimeoutId`:
- `keepTimer`: an early return; the previously armed timer is left intact;
- `invokeNow`: the previous timer is cleared (line 541) and
  `maybeSeekOrSpeedup seekTo seekAt` is invoked synchronously (line 544);
- `armTimer`: the previous timer is cleared (line 541) and a new one-shot
  timer is armed for `delaySeconds` real-time seconds calling
  `maybeSeekOrSpeedup seekTo seekAt` (lines 547-552). -/
inductive SchedulerEffect where
  | keepTimer
  | invokeNow (seekTo seekAt : ℚ)
  | armTimer (delaySeconds seekTo seekAt : ℚ)
deriving DecidableEq, Repr

/-- The method `maybeScheduleMaybeSeekOrSpeedup` (lines 457-554).
`maybeUpcomingSilenceRange` is the answer of the external
`lookahead.getNextSilenceRange(currentTime)`: the range's start and end and
whether the range is still pending, or `none`. -/
def maybeScheduleMaybeSeekOrSpeedup (settings : ControllerSettings)
    (currentTime : ℚ) (maybeUpcomingSilenceRange : Option ((ℚ × ℚ) × Bool)) :
    SchedulerEffect :=
  match maybeUpcomingSilenceRange with
  | none => SchedulerEffect.keepTimer
  | some ((silenceStart, silenceEnd), isTheUpcomingSilenceRangeStillPending) =>
    if settings.isOppositeDay = true ∧ isTheUpcomingSilenceRangeStillPending = true then
      SchedulerEffect.keepTimer
    else
      let seekAt := max silenceStart currentTime
      let seekTo :=
        if isTheUpcomingSilenceRangeStillPending then max seekAt (silenceEnd - 3)
        else silenceEnd
      let amountToSkip := seekTo - currentTime
      if isTheUpcomingSilenceRangeStillPending = true ∧ amountToSkip < 3 then
        SchedulerEffect.keepTimer
      else
        let seekInVideoTime := seekAt - currentTime
        let seekInRealTime := seekInVideoTime / settings.soundedSpeed
        if seekInRealTime ≤ 0 then SchedulerEffect.invokeNow seekTo seekAt
        else SchedulerEffect.armTimer seekInRealTime seekTo seekAt

/-! Spec-side definitions, written from the spec's words, to be compared
with the embedded code. -/

/-- The last `n` elements of a list (the FIFO-retained tail). -/
def lastN (n : Nat) (l : List ℚ) : List ℚ := l.drop (l.length - n)

/-- The spec's estimate: the arithmetic mean of the retained samples, or the
fixed initial assumed duration before any sample exists. -/
def meanOrInitial (l : List ℚ) : ℚ :=
  if l = [] then seekDurationProphetNoDataInitialAssumedDuration
  else l.sum / (l.length : ℚ)

/-- The seek-duration samples a sequence of events yields, per the spec:
each seek-end produces the time from the most recent seek-begin timestamp
(initially the construction timestamp) to the seek-end timestamp. -/
def eventDurations (lastSeekStartTime : ℚ) : List SeekEvent → List ℚ
  | [] => []
  | SeekEvent.seeking ts :: rest => eventDurations ts rest
  | SeekEvent.seeked ts :: rest =>
    (ts - lastSeekStartTime) :: eventDurations lastSeekStartTime rest

/-- The reference timestamp (most recent seek-begin) after a sequence of
events. -/
def finalSeekRef (lastSeekStartTime : ℚ) : List SeekEvent → ℚ
  | [] => lastSeekStartTime
  | SeekEvent.seeking ts :: rest => finalSeekRef ts rest
  | SeekEvent.seeked _ :: rest => finalSeekRef lastSeekStartTime rest

/-- The prophet state the spec predicts after the samples `ds` have been
observed: history is the FIFO tail of the samples, the average is its mean. -/
def prophetOf (lastSeekStartTime : ℚ) (ds : List ℚ) : SeekDurationProphet :=
  { history := lastN seekDurationProphetHistoryLength ds,
    historyAverage := meanOrInitial (lastN seekDurationProphetHistoryLength ds),
    lastSeekStartTime := lastSeekStartTime }

/-- Event timestamps are nondecreasing and start no earlier than `t` (the
monotone-clock guarantee for `performance.now()`-based event timestamps). -/
def chronological (t : ℚ) : List SeekEvent → Bool
  | [] => true
  | e :: rest => decide (t ≤ e.timeStamp) && chronological e.timeStamp rest

lemma lastN_append_singleton (ds : List ℚ) (d : ℚ) :
    lastN seekDurationProphetHistoryLength (ds ++ [d]) =
      if seekDurationProphetHistoryLength <
          (lastN seekDurationProphetHistoryLength ds ++ [d]).length then
        (lastN seekDurationProphetHistoryLength ds ++ [d]).tail
      else lastN seekDurationProphetHistoryLength ds ++ [d] := by
  unfold lastN seekDurationProphetHistoryLength
  rcases le_or_lt ds.length 4 with hm | hm
  · have h0 : ds.length - 5 = 0 := by omega
    have h1 : (ds ++ [d]).length - 5 = 0 := by simp; omega
    rw [h0, h1, List.drop_zero, List.drop_zero, if_neg]
    simp
    omega
  · have h5 : 5 ≤ ds.length := hm
    have hle : (ds ++ [d]).length - 5 = ds.length - 4 := by simp
    have hne : ds.drop (ds.length - 5) ≠ [] := by
      rw [ne_eq, List.drop_eq_nil_iff]
      omega
    rw [hle, if_pos]
    · rw [List.drop_append_of_le_length (by omega),
        List.tail_append_of_ne_nil hne, List.tail_drop]
      have hidx : ds.length - 5 + 1 = ds.length - 4 := by omega
      rw [hidx]
    · simp
      omega

lemma lastN_ne_nil (ds : List ℚ) (d : ℚ) :
    lastN seekDurationProphetHistoryLength (ds ++ [d]) ≠ [] := by
  unfold lastN seekDurationProphetHistoryLength
  rw [ne_eq, List.drop_eq_nil_iff]
  simp
  omega

lemma onSeeked_prophetOf (lastT ts : ℚ) (ds : List ℚ) :
    SeekDurationProphet.onSeeked (prophetOf lastT ds) ts =
      prophetOf lastT (ds ++ [ts - lastT]) := by
  unfold SeekDurationProphet.onSeeked prophetOf
  have hh :
      (if seekDurationProphetHistoryLength <
          (lastN seekDurationProphetHistoryLength ds ++ [ts - lastT]).length then
        (lastN seekDurationProphetHistoryLength ds ++ [ts - lastT]).tail
      else lastN seekDurationProphetHistoryLength ds ++ [ts - lastT]) =
      lastN seekDurationProphetHistoryLength (ds ++ [ts - lastT]) :=
    (lastN_append_singleton ds (ts - lastT)).symm
  simp only [hh]
  have hne := lastN_ne_nil ds (ts - lastT)
  rw [meanOrInitial, if_neg hne]

lemma run_cons (p : SeekDurationProphet) (e : SeekEvent) (rest : List SeekEvent) :
    SeekDurationProphet.run p (e :: rest) = SeekDurationProphet.run (p.step e) rest := rfl

lemma run_prophetOf (lastT : ℚ) (ds : List ℚ) (events : List SeekEvent) :
    SeekDurationProphet.run (prophetOf lastT ds) events =
      prophetOf (finalSeekRef lastT events) (ds ++ eventDurations lastT events) := by
  induction events generalizing lastT ds with
  | nil => simp [SeekDurationProphet.run, eventDurations, finalSeekRef]
  | cons e rest ih =>
    cases e with
    | seeking ts =>
      rw [run_cons]
      have hstep : (prophetOf lastT ds).step (SeekEvent.seeking ts) = prophetOf ts ds := rfl
      rw [hstep, ih, eventDurations, finalSeekRef]
    | seeked ts =>
      rw [run_cons]
      have hstep : (prophetOf lastT ds).step (SeekEvent.seeked ts) =
          prophetOf lastT (ds ++ [ts - lastT]) := onSeeked_prophetOf lastT ts ds
      rw [hstep, ih, eventDurations, finalSeekRef, List.append_assoc]
      rfl

lemma init_eq_prophetOf (t0 : ℚ) :
    SeekDurationProphet.init t0 = prophetOf t0 [] := by
  simp [SeekDurationProphet.init, prophetOf, lastN, meanOrInitial]

lemma eventDurations_nonneg (t t' : ℚ) (events : List SeekEvent) (hle : t ≤ t')
    (h : chronological t' events = true) : ∀ d ∈ eventDurations t events, 0 ≤ d := by
  induction events generalizing t t' with
  | nil => simp [eventDurations]
  | cons e rest ih =>
    cases e with
    | seeking ts =>
      simp only [chronological, SeekEvent.timeStamp, Bool.and_eq_true,
        decide_eq_true_eq] at h
      simpa [eventDurations] using ih ts ts (le_refl ts) h.2
    | seeked ts =>
      simp only [chronological, SeekEvent.timeStamp, Bool.and_eq_true,
        decide_eq_true_eq] at h
      intro d hd
      simp only [eventDurations, List.mem_cons] at hd
      rcases hd with rfl | hd
      · have := h.1
        linarith
      · exact ih t ts (by linarith [h.1]) h.2 d hd

/-- Claim C4: for every sequence of observed seek events, the estimator's
current estimate (`nextSeekDurationMs`) equals the arithmetic mean of at
most the last 5 duration samples, oldest evicted first (the history is
exactly the FIFO tail of the sample sequence), where each sample is
measured from the most recent seek-begin timestamp to the seek-end
timestamp; before any sample it equals the fixed initial assumed duration
of 150 ms. -/
theorem seekDurationProphet_estimate_fifo_mean (t0 : ℚ) (events : List SeekEvent) :
    (SeekDurationProphet.run (SeekDurationProphet.init t0) events).history =
      lastN seekDurationProphetHistoryLength (eventDurations t0 events) ∧
    (SeekDurationProphet.run (SeekDurationProphet.init t0) events).nextSeekDurationMs =
      meanOrInitial (lastN seekDurationProphetHistoryLength (eventDurations t0 events)) := by
  rw [init_eq_prophetOf, run_prophetOf]
  exact ⟨rfl, rfl⟩

/-- Claim C5: after any chronological sequence of seek events, the
estimator's estimate is nonnegative and its sample history holds at most 5
entries. -/
theorem seekDurationProphet_invariant (t0 : ℚ) (events : List SeekEvent)
    (h : chronological t0 events = true) :
    0 ≤ (SeekDurationProphet.run (SeekDurationProphet.init t0) events).nextSeekDurationMs ∧
    (SeekDurationProphet.run (SeekDurationProphet.init t0) events).history.length ≤
      seekDurationProphetHistoryLength := by
  rw [init_eq_prophetOf, run_prophetOf]
  constructor
  · show 0 ≤ meanOrInitial _
    unfold meanOrInitial
    split
    · norm_num [seekDurationProphetNoDataInitialAssumedDuration]
    · apply div_nonneg
      · apply List.sum_nonneg
        intro x hx
        exact eventDurations_nonneg t0 t0 events (le_refl t0) h x
          (List.drop_subset _ _ hx)
      · positivity
  · show (lastN _ _).length ≤ _
    unfold lastN
    rw [List.length_drop]
    omega

/-- Witness for claim C5 at a concrete event sequence. -/
theorem seekDurationProphet_invariant_witness :
    chronological 0 [SeekEvent.seeking 1, SeekEvent.seeked 3] = true ∧
    (0 ≤ (SeekDurationProphet.run (SeekDurationProphet.init 0)
        [SeekEvent.seeking 1, SeekEvent.seeked 3]).nextSeekDurationMs ∧
      (SeekDurationProphet.run (SeekDurationProphet.init 0)
        [SeekEvent.seeking 1, SeekEvent.seeked 3]).history.length ≤
        seekDurationProphetHistoryLength) :=
  ⟨by decide, seekDurationProphet_invariant 0 _ (by decide)⟩

/-! Spec-side formulations of the decision rule, and the decision-engine
theorems. -/

/-- The spec's ordered decision rule (1)-(4) without any forced-seek
override: (1) if more can be saved by seeking, SEEK when the saving is
positive, else NOTHING; (2) NOTHING when speeding up saves nothing; (3) when
the silence-speed time left is at most 1/240 s, SEEK when seeking saves
time, else NOTHING; (4) else SPEEDUP. -/
def orderedDecisionRule (canSaveBySeeking canSaveBySpeedingUp timeAtSilenceSpeed : ℚ) :
    WhatToDo :=
  if canSaveBySeeking > canSaveBySpeedingUp then
    if canSaveBySeeking > 0 then WhatToDo.SEEK else WhatToDo.NOTHING
  else if canSaveBySpeedingUp ≤ 0 then WhatToDo.NOTHING
  else if timeAtSilenceSpeed ≤ 1 / 240 then
    if canSaveBySeeking > 0 then WhatToDo.SEEK else WhatToDo.NOTHING
  else WhatToDo.SPEEDUP

/-- The decision rule exactly as claim C1 words it: the ordered rule with
the forced desync seek overriding only NOTHING verdicts, never SPEEDUP. -/
def claimedDecisionRule (needForceSeek : Bool)
    (canSaveBySeeking canSaveBySpeedingUp timeAtSilenceSpeed : ℚ) : WhatToDo :=
  match orderedDecisionRule canSaveBySeeking canSaveBySpeedingUp timeAtSilenceSpeed with
  | WhatToDo.NOTHING => if needForceSeek then WhatToDo.SEEK else WhatToDo.NOTHING
  | v => v

lemma whatToDo_eq_forced_or_ordered (f : Bool) (a b c : ℚ) :
    whatToDo f a b c = if f = true then WhatToDo.SEEK else orderedDecisionRule a b c := by
  simp only [whatToDo, orderedDecisionRule]
  cases f <;> split_ifs <;> first | rfl | linarith

/-- Settings for the claim C1 counterexample: sounded speed 1, silence
speed 2, desync correction enabled. -/
def cexSettings : ControllerSettings :=
  { volumeThreshold := 0, soundedSpeed := 1, silenceSpeed := 2,
    enableDesyncCorrection := true, isOppositeDay := false }

/-- Engine state for the claim C1 counterexample: full desync budget (20)
and a 900 ms latency estimate. -/
def cexEngineState : EngineState :=
  { didNotDoDesyncCorrectionForNSpeedSwitches := 20,
    prophet := { history := [900], historyAverage := 900, lastSeekStartTime := 0 } }

/-- Element state for the claim C1 counterexample. -/
def cexElementState : ElementState := { currentTime := 0, paused := false }

/-- Claim C1 counterexample: at a concrete non-stale invocation (position 0,
seek target 1, sounded speed 1, silence speed 2, latency estimate 900 ms,
desync budget 20, workaround active) the code's verdict is SEEK — the forced
desync seek fires in decision branch (4) — while the claim's rule, at the
very same derived quantities (canSaveBySeeking = 1/10, canSaveBySpeedingUp =
91/200, timeAtSilenceSpeed = 1/2), yields SPEEDUP because it lets forced
seeks override only NOTHING verdicts. -/
theorem whatToDo_forced_overrides_speedup_cex :
    (maybeSeekOrSpeedup true cexSettings cexEngineState cexElementState 1 0).verdict =
      some WhatToDo.SEEK ∧
    claimedDecisionRule
      (needForceSeekForDesyncCorrection true true 20 1 (9 / 10))
      (1 / 10) (91 / 200) (1 / 2) = WhatToDo.SPEEDUP := by
  constructor
  · norm_num [maybeSeekOrSpeedup, cexSettings, cexEngineState, cexElementState,
      SeekDurationProphet.nextSeekDurationMs, needForceSeekForDesyncCorrection,
      whatToDo, jsNumberMinValue, DO_DESYNC_CORRECTION_EVERY_N_SPEED_SWITCHES]
  · norm_num [claimedDecisionRule, orderedDecisionRule,
      needForceSeekForDesyncCorrection, jsNumberMinValue,
      DO_DESYNC_CORRECTION_EVERY_N_SPEED_SWITCHES]

/-- Claim C1 (amended): for every invocation of the decision engine that
passes the staleness check, the verdict follows the ordered decision rule
(1)-(4) computed from the spec's derived quantities, with the forced desync
seek overriding every non-SEEK verdict — NOTHING and SPEEDUP alike: whenever
the forced-seek test fires the verdict is SEEK, otherwise it is the ordered
rule's verdict. -/
theorem maybeSeekOrSpeedup_verdict_amended_rule (browserHasAudioDesyncBug : Bool)
    (settings : ControllerSettings) (st : EngineState) (el : ElementState)
    (seekTo seekScheduledTo : ℚ) :
    (maybeSeekOrSpeedup browserHasAudioDesyncBug settings st el seekTo
        seekScheduledTo).verdict =
      if |el.currentTime - seekScheduledTo| > 1 / 2 ∨ el.paused = true then none
      else
        some (if needForceSeekForDesyncCorrection browserHasAudioDesyncBug
              settings.enableDesyncCorrection
              st.didNotDoDesyncCorrectionForNSpeedSwitches
              ((seekTo - el.currentTime) / settings.soundedSpeed)
              (st.prophet.nextSeekDurationMs / 1000) = true
          then WhatToDo.SEEK
          else orderedDecisionRule
            ((seekTo - el.currentTime) / settings.soundedSpeed -
              st.prophet.nextSeekDurationMs / 1000)
            ((seekTo - el.currentTime) / settings.soundedSpeed -
              (seekTo - el.currentTime) / settings.silenceSpeed -
              (if browserHasAudioDesyncBug && settings.enableDesyncCorrection then
                st.prophet.nextSeekDurationMs / 1000 /
                  DO_DESYNC_CORRECTION_EVERY_N_SPEED_SWITCHES
              else 0))
            ((seekTo - el.currentTime) / settings.silenceSpeed)) := by
  by_cases hstale : |el.currentTime - seekScheduledTo| > 1 / 2 ∨ el.paused = true
  · simp only [maybeSeekOrSpeedup, if_pos hstale]
  · simp only [maybeSeekOrSpeedup, if_neg hstale]
    rw [whatToDo_eq_forced_or_ordered]
    have hb : (if (browserHasAudioDesyncBug && settings.enableDesyncCorrection) = true then
          (seekTo - el.currentTime) / settings.soundedSpeed -
            (seekTo - el.currentTime) / settings.silenceSpeed -
            st.prophet.nextSeekDurationMs / 1000 /
              DO_DESYNC_CORRECTION_EVERY_N_SPEED_SWITCHES
        else
          (seekTo - el.currentTime) / settings.soundedSpeed -
            (seekTo - el.currentTime) / settings.silenceSpeed) =
        ((seekTo - el.currentTime) / settings.soundedSpeed -
          (seekTo - el.currentTime) / settings.silenceSpeed -
          (if browserHasAudioDesyncBug && settings.enableDesyncCorrection then
            st.prophet.nextSeekDurationMs / 1000 /
              DO_DESYNC_CORRECTION_EVERY_N_SPEED_SWITCHES
          else 0)) := by
      split <;> ring
    rw [hb]
    generalize (if _ = true then WhatToDo.SEEK else orderedDecisionRule _ _ _) = w
    cases w <;> rfl

lemma jsNumberMinValue_pos : 0 < jsNumberMinValue := by
  unfold jsNumberMinValue
  positivity

/-- Claim C2: the forced-seek-for-desync test is evaluated only when the
desync-bug workaround is active (`browserHasAudioDesyncBug` and
`enableDesyncCorrection` both true, else it never forces a seek), and in
that case it forces a seek exactly when `desyncBudget / 20 ≥ 1 -
realTimeLeftUntilDestinationAtNormalSpeed / max(expectedSeekDuration, ε)`
with `ε = Number.MIN_VALUE`. The hypothesis restricts the expected seek
duration to nonnegative double-representable values (zero, or at least the
smallest positive double), on which the code's `x || Number.MIN_VALUE`
fallback agrees with the spec's `max`. -/
theorem needForceSeekForDesyncCorrection_spec (browserHasAudioDesyncBug : Bool)
    (enableDesyncCorrection : Bool) (desyncBudget : Nat)
    (realTimeLeftUntilDestinationAtNormalSpeed expectedSeekDuration : ℚ)
    (h : expectedSeekDuration = 0 ∨ jsNumberMinValue ≤ expectedSeekDuration) :
    needForceSeekForDesyncCorrection browserHasAudioDesyncBug enableDesyncCorrection
        desyncBudget realTimeLeftUntilDestinationAtNormalSpeed expectedSeekDuration =
      (browserHasAudioDesyncBug && enableDesyncCorrection &&
        decide ((desyncBudget : ℚ) / DO_DESYNC_CORRECTION_EVERY_N_SPEED_SWITCHES ≥
          1 - realTimeLeftUntilDestinationAtNormalSpeed /
            max expectedSeekDuration jsNumberMinValue)) := by
  unfold needForceSeekForDesyncCorrection
  have hd : (if expectedSeekDuration = 0 then jsNumberMinValue
        else expectedSeekDuration) =
      max expectedSeekDuration jsNumberMinValue := by
    rcases h with h0 | hge
    · rw [if_pos h0, h0]
      exact (max_eq_right jsNumberMinValue_pos.le).symm
    · have hpos : 0 < expectedSeekDuration := lt_of_lt_of_le jsNumberMinValue_pos hge
      rw [if_neg (ne_of_gt hpos)]
      exact (max_eq_left hge).symm
  cases hb : browserHasAudioDesyncBug && enableDesyncCorrection
  · simp [hb]
  · simp only [Bool.true_and, if_true, eq_self_iff_true, hd]

/-- Witness for claim C2 at a concrete input (budget 20, natural time left
1 s, expected seek duration 9/10 s). -/
theorem needForceSeekForDesyncCorrection_spec_witness :
    ((9 : ℚ) / 10 = 0 ∨ jsNumberMinValue ≤ (9 : ℚ) / 10) ∧
    needForceSeekForDesyncCorrection true true 20 1 (9 / 10) =
      (true && true &&
        decide (((20 : Nat) : ℚ) / DO_DESYNC_CORRECTION_EVERY_N_SPEED_SWITCHES ≥
          1 - 1 / max ((9 : ℚ) / 10) jsNumberMinValue)) :=
  ⟨Or.inr (by norm_num [jsNumberMinValue]),
    needForceSeekForDesyncCorrection_spec true true 20 1 (9 / 10)
      (Or.inr (by norm_num [jsNumberMinValue]))⟩

/-- Claim C3: for every value of the desync budget counter, executing a SEEK
(forced or chosen) resets the counter to 0, executing a SPEEDUP increments
it by exactly 1 (one increment for the pair of rate switches), and an
invocation that performs no seek and no speedup — a stale abort or a NOTHING
verdict — leaves the counter unchanged; nothing but an actual seek resets
it. -/
theorem desyncBudget_resets_only_on_seek (browserHasAudioDesyncBug : Bool)
    (settings : ControllerSettings) (st : EngineState) (el : ElementState)
    (seekTo seekScheduledTo : ℚ) :
    (maybeSeekOrSpeedup browserHasAudioDesyncBug settings st el seekTo
        seekScheduledTo).state.didNotDoDesyncCorrectionForNSpeedSwitches =
      match (maybeSeekOrSpeedup browserHasAudioDesyncBug settings st el seekTo
          seekScheduledTo).effect with
      | EngineEffect.seek _ => 0
      | EngineEffect.speedup _ => st.didNotDoDesyncCorrectionForNSpeedSwitches + 1
      | EngineEffect.noop => st.didNotDoDesyncCorrectionForNSpeedSwitches := by
  simp only [maybeSeekOrSpeedup]
  by_cases hstale : |el.currentTime - seekScheduledTo| > 1 / 2 ∨ el.paused = true
  · rw [if_pos hstale]
  · rw [if_neg hstale]
    split <;> rfl

/-- Claim C7: every invocation of the decision engine on a paused element,
or with the current position drifted more than 0.5 time units from the
scheduled position, is a no-op: no element mutation (effect `noop`), no
verdict, and the controller state — desync budget and latency estimator —
unchanged. -/
theorem maybeSeekOrSpeedup_stale_noop (browserHasAudioDesyncBug : Bool)
    (settings : ControllerSettings) (st : EngineState) (el : ElementState)
    (seekTo seekScheduledTo : ℚ)
    (h : el.paused = true ∨ |el.currentTime - seekScheduledTo| > 1 / 2) :
    maybeSeekOrSpeedup browserHasAudioDesyncBug settings st el seekTo seekScheduledTo =
      { verdict := none, effect := EngineEffect.noop, state := st } := by
  simp only [maybeSeekOrSpeedup]
  rw [if_pos h.symm]

/-- Settings for the claim C7 witness. -/
def w7Settings : ControllerSettings :=
  { volumeThreshold := 0, soundedSpeed := 1, silenceSpeed := 2,
    enableDesyncCorrection := true, isOppositeDay := false }

/-- State for the claim C7 witness: a nonzero desync budget so the
unchanged-state conclusion is not vacuous. -/
def w7State : EngineState :=
  { didNotDoDesyncCorrectionForNSpeedSwitches := 7,
    prophet := SeekDurationProphet.init 0 }

/-- Witness for claim C7: a paused element makes the invocation a no-op. -/
theorem maybeSeekOrSpeedup_stale_noop_witness :
    maybeSeekOrSpeedup false w7Settings w7State
        { currentTime := 0, paused := true } 1 0 =
      { verdict := none, effect := EngineEffect.noop, state := w7State } :=
  maybeSeekOrSpeedup_stale_noop false w7Settings w7State
    { currentTime := 0, paused := true } 1 0 (Or.inl rfl)

/-- Claim C9: every SPEEDUP verdict immediately switches the playback rate
to the silence-speed value and arms a one-shot timer for
`realTimeLeftUntilDestinationAtSilenceSpeed = seekAmount / silenceSpeed`
real-time seconds that switches the rate back to the sounded-speed value. -/
theorem speedup_effect_rates_and_timer (browserHasAudioDesyncBug : Bool)
    (settings : ControllerSettings) (st : EngineState) (el : ElementState)
    (seekTo seekScheduledTo : ℚ)
    (h : (maybeSeekOrSpeedup browserHasAudioDesyncBug settings st el seekTo
        seekScheduledTo).verdict = some WhatToDo.SPEEDUP) :
    (maybeSeekOrSpeedup browserHasAudioDesyncBug settings st el seekTo
        seekScheduledTo).effect =
      EngineEffect.speedup
        { rateNow :=
            getActualPlaybackRateForSpeed settings.silenceSpeed settings.volumeThreshold,
          restoreDelaySeconds := (seekTo - el.currentTime) / settings.silenceSpeed,
          rateAfter :=
            getActualPlaybackRateForSpeed settings.soundedSpeed settings.volumeThreshold } := by
  simp only [maybeSeekOrSpeedup] at h ⊢
  by_cases hstale : |el.currentTime - seekScheduledTo| > 1 / 2 ∨ el.paused = true
  · rw [if_pos hstale] at h
    exact absurd h (by simp)
  · rw [if_neg hstale] at h ⊢
    split at h <;> simp_all

/-- Settings for the claim C9 witness: sounded speed 1, silence speed 4. -/
def w9Settings : ControllerSettings :=
  { volumeThreshold := 0, soundedSpeed := 1, silenceSpeed := 4,
    enableDesyncCorrection := false, isOppositeDay := false }

/-- State for the claim C9 witness: a 3000 ms latency estimate, high enough
that speeding up beats seeking. -/
def w9State : EngineState :=
  { didNotDoDesyncCorrectionForNSpeedSwitches := 0,
    prophet := { history := [3000], historyAverage := 3000, lastSeekStartTime := 0 } }

/-- Element state for the claim C9 witness: playing at position 10. -/
def w9Element : ElementState := { currentTime := 10, paused := false }

/-- Witness for claim C9, the spec's concrete scenario: finalized range
[10, 20] evaluated at position 10 with sounded speed 1 and silence speed 4;
SPEEDUP is chosen and the restoration timer is armed for (20-10)/4 = 2.5
seconds. -/
theorem speedup_effect_witness :
    (maybeSeekOrSpeedup false w9Settings w9State w9Element 20 10).effect =
      EngineEffect.speedup { rateNow := 4, restoreDelaySeconds := 5 / 2, rateAfter := 1 } := by
  have h := speedup_effect_rates_and_timer false w9Settings w9State w9Element 20 10
    (by norm_num [maybeSeekOrSpeedup, w9Settings, w9State, w9Element,
      SeekDurationProphet.nextSeekDurationMs, needForceSeekForDesyncCorrection, whatToDo])
  rw [h]
  norm_num [getActualPlaybackRateForSpeed, w9Settings, w9Element]

/-! Spec-side scheduler target formulas and the scheduler theorems. -/

/-- The spec's `seekAt = max(range.start, currentPosition)`. -/
def seekAtSpec (silenceStart currentTime : ℚ) : ℚ := max silenceStart currentTime

/-- The spec's `seekTo = isPending ? max(seekAt, range.end - 3) : range.end`. -/
def seekToSpec (silenceStart silenceEnd currentTime : ℚ) (isPending : Bool) : ℚ :=
  if isPending then max (seekAtSpec silenceStart currentTime) (silenceEnd - 3)
  else silenceEnd

/-- Claim C6: whenever the scheduler finds a next skippable range, the seek
target it schedules (synchronously or via timer) is `seekTo = (pending ?
max(max(start, current), end - 3) : end)` evaluated at `seekAt = max(start,
current)`; and if the range is pending and `seekTo - currentTime < 3`, it
takes no action this cycle — no decision-engine invocation and no timer. -/
theorem scheduler_seek_targets_and_threshold (settings : ControllerSettings)
    (currentTime silenceStart silenceEnd : ℚ) (isPending : Bool) :
    (isPending = true →
      seekToSpec silenceStart silenceEnd currentTime isPending - currentTime < 3 →
      maybeScheduleMaybeSeekOrSpeedup settings currentTime
        (some ((silenceStart, silenceEnd), isPending)) = SchedulerEffect.keepTimer) ∧
    (∀ delaySeconds seekTo seekAt,
      maybeScheduleMaybeSeekOrSpeedup settings currentTime
          (some ((silenceStart, silenceEnd), isPending)) =
        SchedulerEffect.armTimer delaySeconds seekTo seekAt →
      seekTo = seekToSpec silenceStart silenceEnd currentTime isPending ∧
      seekAt = seekAtSpec silenceStart currentTime) ∧
    (∀ seekTo seekAt,
      maybeScheduleMaybeSeekOrSpeedup settings currentTime
          (some ((silenceStart, silenceEnd), isPending)) =
        SchedulerEffect.invokeNow seekTo seekAt →
      seekTo = seekToSpec silenceStart silenceEnd currentTime isPending ∧
      seekAt = seekAtSpec silenceStart currentTime) := by
  simp only [maybeScheduleMaybeSeekOrSpeedup, seekToSpec, seekAtSpec]
  refine ⟨?_, ?_, ?_⟩
  · intro hp hlt
    split_ifs with h1 h2 h3 <;> simp_all
  · intro d sTo sAt he
    split_ifs at he with h1 h2 h3 <;> cases he <;> simp_all
  · intro sTo sAt he
    split_ifs at he with h1 h2 h3 <;> cases he <;> simp_all

/-- Settings for the claim C6 witness. -/
def w6Settings : ControllerSettings :=
  { volumeThreshold := 0, soundedSpeed := 1, silenceSpeed := 4,
    enableDesyncCorrection := false, isOppositeDay := false }

/-- Witness for claim C6: a pending range [0, 2] at position 0 gives
seekTo = max(max(0, 0), -1) = 0, so the amount to skip is below the 3-unit
threshold and no action is taken. -/
theorem scheduler_seek_targets_witness :
    maybeScheduleMaybeSeekOrSpeedup w6Settings 0 (some ((0, 2), true)) =
      SchedulerEffect.keepTimer :=
  (scheduler_seek_targets_and_threshold w6Settings 0 0 2 true).1 rfl
    (by norm_num [seekToSpec, seekAtSpec])

/-- Claim C8: in opposite-day mode a pending next range produces no
scheduled action at all — no timer armed and no synchronous decision-engine
invocation. -/
theorem oppositeDay_pending_keeps_timer (settings : ControllerSettings)
    (currentTime silenceStart silenceEnd : ℚ) (isPending : Bool)
    (hopp : settings.isOppositeDay = true) (hp : isPending = true) :
    maybeScheduleMaybeSeekOrSpeedup settings currentTime
      (some ((silenceStart, silenceEnd), isPending)) = SchedulerEffect.keepTimer := by
  simp only [maybeScheduleMaybeSeekOrSpeedup]
  rw [if_pos ⟨hopp, hp⟩]

/-- Settings for the claim C8 witness: opposite-day mode on. -/
def oppSettings : ControllerSettings :=
  { volumeThreshold := 0, soundedSpeed := 1, silenceSpeed := 4,
    enableDesyncCorrection := false, isOppositeDay := true }

/-- Witness for claim C8 at a concrete pending range. -/
theorem oppositeDay_pending_keeps_timer_witness :
    maybeScheduleMaybeSeekOrSpeedup oppSettings 0 (some ((5, 100), true)) =
      SchedulerEffect.keepTimer :=
  oppositeDay_pending_keeps_timer oppSettings 0 5 100 true rfl rfl

/-- Claim C10: a scheduler invocation leaves the previously armed timer
intact (`keepTimer`) exactly when it returns early — no range known, a
pending range in opposite-day mode, or a pending range whose amount to skip
is under the 3-unit threshold; in every other case the previous timer is
cleared, both on the `armTimer` path and on the synchronous `invokeNow` path
(the two non-`keepTimer` effects, each of which clears the previous timer at
source line 541 before acting). -/
theorem scheduler_keepTimer_iff_guard (settings : ControllerSettings)
    (currentTime : ℚ) (maybeUpcomingSilenceRange : Option ((ℚ × ℚ) × Bool)) :
    maybeScheduleMaybeSeekOrSpeedup settings currentTime maybeUpcomingSilenceRange =
        SchedulerEffect.keepTimer ↔
      (maybeUpcomingSilenceRange = none ∨
        ∃ silenceStart silenceEnd isPending,
          maybeUpcomingSilenceRange = some ((silenceStart, silenceEnd), isPending) ∧
          ((settings.isOppositeDay = true ∧ isPending = true) ∨
            (isPending = true ∧
              seekToSpec silenceStart silenceEnd currentTime isPending -
                currentTime < 3))) := by
  rcases maybeUpcomingSilenceRange with _ | ⟨⟨s, e⟩, p⟩
  · simp [maybeScheduleMaybeSeekOrSpeedup]
  · simp only [maybeScheduleMaybeSeekOrSpeedup, seekToSpec, seekAtSpec]
    constructor
    · intro hk
      refine Or.inr ⟨s, e, p, rfl, ?_⟩
      by_cases h1 : settings.isOppositeDay = true ∧ p = true
      · exact Or.inl h1
      · rw [if_neg h1] at hk
        by_cases h2 : p = true ∧ (if p then max (max s currentTime) (e - 3) else e) -
            currentTime < 3
        · exact Or.inr (by simpa [h2.1] using h2)
        · rw [if_neg h2] at hk
          split_ifs at hk
    · intro hg
      rcases hg with hnone | ⟨s', e', p', heq, hcase⟩
      · exact absurd hnone (by simp)
      · simp only [Option.some.injEq, Prod.mk.injEq] at heq
        obtain ⟨⟨hs, he2⟩, hp⟩ := heq
        rw [← hs, ← he2, ← hp] at hcase
        rcases hcase with h1 | h2
        · rw [if_pos h1]
        · by_cases h1 : settings.isOppositeDay = true ∧ p = true
          · rw [if_pos h1]
          · rw [if_neg h1, if_pos]
            exact ⟨h2.1, by simpa [h2.1] using h2.2⟩
